import Mathlib

/-!
Shallow embedding of the India census dashboard's data pipeline
(`src/app.py`): filtering, geo-centering, delta percentages, top-N
ranking, schema inspection, descriptive statistics, CSV export and the
two duplicated rendering blocks.  Numeric cells are embedded as `ℚ`;
pandas floating-point results that may be NaN or infinite are embedded
as `PFloat`, an explicit IEEE-style sum type.
-/

namespace Census

open scoped List

/-- One row of the loaded table: a district.  Columns `State`,
`District`, `Latitude`, `Longitude` are explicit fields; the open set
of numeric columns is an association list from column name to value. -/
structure Record where
  state : String
  district : String
  latitude : ℚ
  longitude : ℚ
  attrs : List (String × ℚ)
deriving DecidableEq

/-- Value of numeric column `a` in record `r` (the embedding of
`row[a]` for a column known to exist; absent columns default to 0). -/
def Record.attrVal (r : Record) (a : String) : ℚ :=
  ((r.attrs.lookup a).getD 0)

/-- The loaded DataFrame: its full column list, the subset of column
names pandas detects as numeric, and the rows in file order. -/
structure Dataset where
  allCols : List String
  numericCols : List String
  records : List Record
deriving DecidableEq

/-- An IEEE-754-style pandas float result: a rational value, positive
or negative infinity, or NaN. -/
inductive PFloat where
  | val (q : ℚ)
  | inf
  | neginf
  | nan
deriving DecidableEq

/-- Floating-point subtraction on `PFloat` (NaN-propagating,
`∞ - ∞ = NaN`). -/
def PFloat.sub : PFloat → PFloat → PFloat
  | .nan, _ => .nan
  | _, .nan => .nan
  | .val a, .val b => .val (a - b)
  | .val _, .inf => .neginf
  | .val _, .neginf => .inf
  | .inf, .inf => .nan
  | .inf, _ => .inf
  | .neginf, .neginf => .nan
  | .neginf, _ => .neginf

/-- Floating-point multiplication on `PFloat` (NaN-propagating,
`±∞ * 0 = NaN`). -/
def PFloat.mul : PFloat → PFloat → PFloat
  | .nan, _ => .nan
  | _, .nan => .nan
  | .val a, .val b => .val (a * b)
  | .val a, .inf => if 0 < a then .inf else if a < 0 then .neginf else .nan
  | .val a, .neginf => if 0 < a then .neginf else if a < 0 then .inf else .nan
  | .inf, .val b => if 0 < b then .inf else if b < 0 then .neginf else .nan
  | .neginf, .val b => if 0 < b then .neginf else if b < 0 then .inf else .nan
  | .inf, .inf => .inf
  | .inf, .neginf => .neginf
  | .neginf, .inf => .neginf
  | .neginf, .neginf => .inf

/-- Floating-point division on `PFloat`: division by zero yields a
signed infinity (or NaN for `0/0`), exactly as numpy float64 does —
it does not raise. -/
def PFloat.div : PFloat → PFloat → PFloat
  | .nan, _ => .nan
  | _, .nan => .nan
  | .val a, .val b =>
      if b ≠ 0 then .val (a / b)
      else if 0 < a then .inf else if a < 0 then .neginf else .nan
  | .val _, .inf => .val 0
  | .val _, .neginf => .val 0
  | .inf, .val b => if b < 0 then .neginf else .inf
  | .neginf, .val b => if b < 0 then .inf else .neginf
  | _, _ => .nan

/-- Floating-point comparison `x ≤ y` on `PFloat`; any comparison with
NaN is false. -/
def PFloat.ble : PFloat → PFloat → Bool
  | .nan, _ => false
  | _, .nan => false
  | .neginf, _ => true
  | _, .neginf => false
  | _, .inf => true
  | .inf, _ => false
  | .val a, .val b => decide (a ≤ b)

/-- `pandas.Series.mean`: NaN on an empty series, otherwise the exact
arithmetic mean. -/
def pmean (l : List ℚ) : PFloat :=
  if l.isEmpty then .nan else .val (l.sum / l.length)

/-- The "all regions" sentinel option of the region selectbox. -/
def sentinel : String := "Overall India"

/-- Lines 171–177: `df.copy()` when the sentinel is selected, otherwise
the boolean-mask row selection `df[df['State'] == selected_state]`,
which keeps matching rows in their original order. -/
def filteredRecords (d : Dataset) (region : String) : List Record :=
  if region = sentinel then d.records
  else d.records.filter (fun r => r.state == region)

/-- Lines 173/178: zoom 4 for the sentinel, zoom 6 otherwise. -/
def zoomLevel (region : String) : Nat :=
  if region = sentinel then 4 else 6

/-- Lines 174/179: the fixed national latitude for the sentinel,
otherwise `filtered_df['Latitude'].mean()`. -/
def centerLat (d : Dataset) (region : String) : PFloat :=
  if region = sentinel then .val (20.5937 : ℚ)
  else pmean ((filteredRecords d region).map (·.latitude))

/-- Lines 175/180: the fixed national longitude for the sentinel,
otherwise `filtered_df['Longitude'].mean()`. -/
def centerLon (d : Dataset) (region : String) : PFloat :=
  if region = sentinel then .val (78.9629 : ℚ)
  else pmean ((filteredRecords d region).map (·.longitude))

/-- Line 199: the delta string passed to `st.metric` — computed as
`(filtered_df[attr].mean() / df[attr].mean() - 1) * 100` when a
specific region is selected, and absent (`None`) for the sentinel.
There is no guard on the global mean being zero. -/
def deltaPercent (d : Dataset) (region : String) (attr : String) : Option PFloat :=
  if region ≠ sentinel then
    some (PFloat.mul
      (PFloat.sub
        (PFloat.div (pmean ((filteredRecords d region).map (·.attrVal attr)))
                    (pmean (d.records.map (·.attrVal attr))))
        (.val 1))
      (.val 100))
  else none

/-- The descending comparison on column `attr` used by
`nlargest(n, attr)` (with its default `keep='first'`, nlargest is a
stable descending sort followed by taking the first `n` rows). -/
def descBy (attr : String) (a b : Record) : Bool :=
  decide (b.attrVal attr ≤ a.attrVal attr)

/-- `view.nlargest(n, attr)`: stable descending sort by `attr`, then
the first `n` rows. -/
def topN (view : List Record) (attr : String) (n : Nat) : List Record :=
  (view.mergeSort (descBy attr)).take n

/-- Line 267: the code instantiates top-N with `n = 10`. -/
def topDistricts (view : List Record) (attr : String) : List Record :=
  topN view attr 10

/-- Python's `sorted` on a list of strings. -/
def sortedStrings (l : List String) : List String :=
  l.insertionSort (· ≤ ·)

/-- Lines 124–127: the numeric column names, sorted, with the
coordinate columns removed. -/
def numericAttributes (d : Dataset) : List String :=
  (sortedStrings d.numericCols).filter
    (fun c => !(c == "Latitude") && !(c == "Longitude"))

/-- Line 113: `['Overall India'] + sorted(df['State'].unique().tolist())`. -/
def regionOptions (d : Dataset) : List String :=
  sentinel :: sortedStrings (d.records.map (·.state)).dedup

/-- The dataset's distinct region names with the sentinel value
excluded (the index set of the partition property). -/
def regionKeys (d : Dataset) : List String :=
  (sortedStrings (d.records.map (·.state)).dedup).filter (fun s => !(s == sentinel))

/-- Ascending sort of a column's values, as pandas quantile uses. -/
def ascSort (l : List ℚ) : List ℚ :=
  l.mergeSort (fun a b => decide (a ≤ b))

/-- The `k/4` quantile (`k ∈ [0,4]`) of an already-sorted nonempty
list, by pandas' linear interpolation: with `m` values and
`h = (m-1)·k/4`, the result is `x_⌊h⌋ + (h-⌊h⌋)·(x_⌊h⌋₊₁ - x_⌊h⌋)`. -/
def quartileVal (xs : List ℚ) (k : Nat) : ℚ :=
  let m := xs.length
  let i := (m - 1) * k / 4
  let x0 := xs.getD i 0
  let x1 := xs.getD (min (i + 1) (m - 1)) 0
  x0 + (((m - 1) * k % 4 : Nat) : ℚ) / 4 * (x1 - x0)

/-- The `k/4` quantile of a column as pandas `describe` reports it:
NaN on an empty series. -/
def quartilePF (l : List ℚ) (k : Nat) : PFloat :=
  if l.isEmpty then .nan else .val (quartileVal (ascSort l) k)

/-- `pandas.Series.var` (ddof = 1): NaN when fewer than two values,
otherwise the sum of squared deviations over `n - 1`.  `describe`'s
`std` entry is the square root of this value; the claims only use the
ddof = 1 convention and never the root itself, which is irrational in
general, so the summary carries the variance. -/
def sampleVar (l : List ℚ) : PFloat :=
  if l.length ≤ 1 then .nan
  else .val ((l.map (fun x => (x - l.sum / l.length) ^ 2)).sum / ((l.length : ℚ) - 1))

/-- The output of `Series.describe()`: count, mean, spread (as the
ddof = 1 variance, whose square root is the reported std), min, the
three quartiles, and max. -/
structure DescrStats where
  count : Nat
  mean : PFloat
  var1 : PFloat
  min : PFloat
  q25 : PFloat
  q50 : PFloat
  q75 : PFloat
  max : PFloat
deriving DecidableEq

/-- Lines 365/370: `filtered_df[attr].describe()`. -/
def describe (view : List Record) (attr : String) : DescrStats :=
  let vals := view.map (·.attrVal attr)
  { count := vals.length
    mean := pmean vals
    var1 := sampleVar vals
    min := quartilePF vals 0
    q25 := quartilePF vals 1
    q50 := quartilePF vals 2
    q75 := quartilePF vals 3
    max := quartilePF vals 4 }

/-- A two-dimensional table about to be serialized or displayed: its
column list and its rows in order. -/
structure Frame where
  cols : List String
  rows : List Record
deriving DecidableEq

/-- Line 344: `csv = filtered_df.to_csv(index=False)` — the exported
table is the whole filtered view, all columns, rows in the view's
original order. -/
def exportFrame (d : Dataset) (view : List Record) : Frame :=
  ⟨d.allCols, view⟩

/-- Modelled from the spec's words, for comparison with `exportFrame`:
the export it describes is the view restricted to the region, district,
primary and secondary columns, sorted descending by the primary
attribute. -/
def specExportFrame (view : List Record) (primary secondary : String) : Frame :=
  ⟨["State", "District", primary, secondary], view.mergeSort (descBy primary)⟩

/-- Line 354: the on-screen table
`filtered_df[['State','District',primary,secondary]].sort_values(by=primary, ascending=False)`. -/
def displayedFrame (view : List Record) (primary secondary : String) : Frame :=
  ⟨["State", "District", primary, secondary], view.mergeSort (descBy primary)⟩

/-- Line 348: `f'india_census_{selected_state.replace(" ", "_")}.csv'`. -/
def exportFileName (region : String) : String :=
  "india_census_" ++ (region.replace " " "_") ++ ".csv"

/-- The user-driven selection state read by each rendering block. -/
structure Selection where
  selectedState : String
  primary : String
  secondary : String
  showStats : Bool
  showComparison : Bool
deriving DecidableEq

/-- Every value a rendering block computes from the dataset and the
selection. -/
structure PassOutput where
  filtered : List Record
  zoom : Nat
  cLat : PFloat
  cLon : PFloat
  totalDistricts : Nat
  avgPrimary : PFloat
  deltaPrimary : Option PFloat
  avgSecondary : PFloat
  deltaSecondary : Option PFloat
  statesCovered : Nat
  top10 : List Record
  exportCsv : Frame
  csvName : String
  displayed : Frame
  statsPrimary : DescrStats
  statsSecondary : DescrStats
deriving DecidableEq

/-- The first `if plot:` block, lines 169–371, translated clause by
clause. -/
def renderPass1 (d : Dataset) (sel : Selection) : PassOutput :=
  let filtered :=
    if sel.selectedState = sentinel then d.records
    else d.records.filter (fun r => r.state == sel.selectedState)
  let zoom := if sel.selectedState = sentinel then 4 else 6
  let cLat :=
    if sel.selectedState = sentinel then PFloat.val (20.5937 : ℚ)
    else pmean (filtered.map (·.latitude))
  let cLon :=
    if sel.selectedState = sentinel then PFloat.val (78.9629 : ℚ)
    else pmean (filtered.map (·.longitude))
  let deltaOf := fun (attr : String) =>
    if sel.selectedState ≠ sentinel then
      some (PFloat.mul
        (PFloat.sub
          (PFloat.div (pmean (filtered.map (·.attrVal attr)))
                      (pmean (d.records.map (·.attrVal attr))))
          (.val 1))
        (.val 100))
    else none
  { filtered := filtered
    zoom := zoom
    cLat := cLat
    cLon := cLon
    totalDistricts := filtered.length
    avgPrimary := pmean (filtered.map (·.attrVal sel.primary))
    deltaPrimary := if sel.showStats then deltaOf sel.primary else none
    avgSecondary := pmean (filtered.map (·.attrVal sel.secondary))
    deltaSecondary := if sel.showStats then deltaOf sel.secondary else none
    statesCovered := (filtered.map (·.state)).dedup.length
    top10 := if sel.showComparison then (filtered.mergeSort (descBy sel.primary)).take 10 else []
    exportCsv := ⟨d.allCols, filtered⟩
    csvName := "india_census_" ++ (sel.selectedState.replace " " "_") ++ ".csv"
    displayed := ⟨["State", "District", sel.primary, sel.secondary],
                  filtered.mergeSort (descBy sel.primary)⟩
    statsPrimary := describe filtered sel.primary
    statsSecondary := describe filtered sel.secondary }

/-- The second `if plot:` block, lines 426–628 — a verbatim duplicate
of the first, translated independently clause by clause. -/
def renderPass2 (d : Dataset) (sel : Selection) : PassOutput :=
  let filtered :=
    if sel.selectedState = sentinel then d.records
    else d.records.filter (fun r => r.state == sel.selectedState)
  let zoom := if sel.selectedState = sentinel then 4 else 6
  let cLat :=
    if sel.selectedState = sentinel then PFloat.val (20.5937 : ℚ)
    else pmean (filtered.map (·.latitude))
  let cLon :=
    if sel.selectedState = sentinel then PFloat.val (78.9629 : ℚ)
    else pmean (filtered.map (·.longitude))
  let deltaOf := fun (attr : String) =>
    if sel.selectedState ≠ sentinel then
      some (PFloat.mul
        (PFloat.sub
          (PFloat.div (pmean (filtered.map (·.attrVal attr)))
                      (pmean (d.records.map (·.attrVal attr))))
          (.val 1))
        (.val 100))
    else none
  { filtered := filtered
    zoom := zoom
    cLat := cLat
    cLon := cLon
    totalDistricts := filtered.length
    avgPrimary := pmean (filtered.map (·.attrVal sel.primary))
    deltaPrimary := if sel.showStats then deltaOf sel.primary else none
    avgSecondary := pmean (filtered.map (·.attrVal sel.secondary))
    deltaSecondary := if sel.showStats then deltaOf sel.secondary else none
    statesCovered := (filtered.map (·.state)).dedup.length
    top10 := if sel.showComparison then (filtered.mergeSort (descBy sel.primary)).take 10 else []
    exportCsv := ⟨d.allCols, filtered⟩
    csvName := "india_census_" ++ (sel.selectedState.replace " " "_") ++ ".csv"
    displayed := ⟨["State", "District", sel.primary, sel.secondary],
                  filtered.mergeSort (descBy sel.primary)⟩
    statsPrimary := describe filtered sel.primary
    statsSecondary := describe filtered sel.secondary }

/-! Concrete rows and datasets used by counterexamples and witnesses. -/

/-- A district in region "A" whose "Pop" value is 5. -/
def recA : Record := ⟨"A", "dist1", 10, 20, [("Pop", 5), ("Lit", 1)]⟩

/-- A district in region "B" whose "Pop" value is -5. -/
def recB : Record := ⟨"B", "dist2", 12, 22, [("Pop", -5), ("Lit", 2)]⟩

/-- A dataset whose global "Pop" mean is zero. -/
def d1 : Dataset :=
  ⟨["State", "District", "Latitude", "Longitude", "Pop", "Lit"],
   ["Latitude", "Longitude", "Lit", "Pop"], [recA, recB]⟩

/-- A dataset with a single region "A", so that region "B" filters to
an empty view. -/
def d5 : Dataset :=
  ⟨["State", "District", "Latitude", "Longitude", "Pop", "Lit"],
   ["Latitude", "Longitude", "Lit", "Pop"], [recA]⟩

/-- A dataset whose rows are not in descending "Pop" order. -/
def d6 : Dataset :=
  ⟨["State", "District", "Latitude", "Longitude", "Pop", "Lit"],
   ["Latitude", "Longitude", "Lit", "Pop"], [recB, recA]⟩

/-- The worked scenario of the spec: region "A" with one district and
region "B" with two. -/
def recW1 : Record := ⟨"A", "dist1", 10, 20, [("Pop", 100)]⟩

/-- Second scenario row, region "B". -/
def recW2 : Record := ⟨"B", "dist2", 12, 22, [("Pop", 300)]⟩

/-- Third scenario row, region "B". -/
def recW3 : Record := ⟨"B", "dist3", 14, 24, [("Pop", 500)]⟩

/-- The scenario dataset with regions "A" and "B". -/
def dW : Dataset :=
  ⟨["State", "District", "Latitude", "Longitude", "Pop"],
   ["Latitude", "Longitude", "Pop"], [recW1, recW2, recW3]⟩

/-! Helper lemmas. -/

/-- Evaluation of `mergeSort` on a two-element list. -/
theorem mergeSort_pair {α : Type} (le : α → α → Bool) (a b : α) :
    [a, b].mergeSort le = if le a b then [a, b] else [b, a] := by
  rw [List.mergeSort]
  simp [List.splitInTwo, List.splitAt_eq, List.merge]

/-- The descending comparison is transitive. -/
theorem descBy_trans (attr : String) (a b c : Record) :
    descBy attr a b → descBy attr b c → descBy attr a c := by
  simp only [descBy, decide_eq_true_eq]
  exact fun h1 h2 => le_trans h2 h1

/-- The descending comparison is total. -/
theorem descBy_total (attr : String) (a b : Record) :
    descBy attr a b || descBy attr b a := by
  simp only [descBy, Bool.or_eq_true, decide_eq_true_eq]
  exact le_total _ _

/-- The ascending rational comparison is transitive. -/
theorem ascLe_trans (a b c : ℚ) :
    decide (a ≤ b) = true → decide (b ≤ c) = true → decide (a ≤ c) = true := by
  simp only [decide_eq_true_eq]
  exact le_trans

/-- The ascending rational comparison is total. -/
theorem ascLe_total (a b : ℚ) : (decide (a ≤ b) || decide (b ≤ a)) = true := by
  simp only [Bool.or_eq_true, decide_eq_true_eq]
  exact le_total _ _

/-- Stability of the descending sort on records with a common key:
filtering the sorted list at any fixed attribute value gives back the
original filter, in the original order. -/
theorem mergeSort_filter_key (view : List Record) (attr : String) (q : ℚ) :
    (view.mergeSort (descBy attr)).filter (fun x => decide (x.attrVal attr = q)) =
      view.filter (fun x => decide (x.attrVal attr = q)) := by
  have hpair : (view.filter (fun x => decide (x.attrVal attr = q))).Pairwise
      (fun a b => descBy attr a b = true) := by
    apply List.pairwise_of_forall_mem_list
    intro a ha b hb
    have hqa : a.attrVal attr = q := by
      simpa using (List.mem_filter.mp ha).2
    have hqb : b.attrVal attr = q := by
      simpa using (List.mem_filter.mp hb).2
    simp [descBy, hqa, hqb]
  have hsub : view.filter (fun x => decide (x.attrVal attr = q)) <+
      view.mergeSort (descBy attr) :=
    List.sublist_mergeSort (descBy_trans attr) (descBy_total attr) hpair
      (List.filter_sublist view)
  have hself : (view.filter (fun x => decide (x.attrVal attr = q))).filter
      (fun x => decide (x.attrVal attr = q)) =
      view.filter (fun x => decide (x.attrVal attr = q)) := by
    rw [List.filter_eq_self]
    exact fun a ha => (List.mem_filter.mp ha).2
  have hsub2 : view.filter (fun x => decide (x.attrVal attr = q)) <+
      (view.mergeSort (descBy attr)).filter (fun x => decide (x.attrVal attr = q)) :=
    hself ▸ hsub.filter (fun x => decide (x.attrVal attr = q))
  have hlen : ((view.mergeSort (descBy attr)).filter
      (fun x => decide (x.attrVal attr = q))).length =
      (view.filter (fun x => decide (x.attrVal attr = q))).length :=
    ((List.mergeSort_perm view (descBy attr)).filter _).length_eq
  exact (hsub2.eq_of_length hlen.symm).symm

/-- In a sorted list of rationals, values at earlier positions are at
most values at later positions. -/
theorem sorted_getD_mono {xs : List ℚ} (h : xs.Pairwise (· ≤ ·)) {i j : Nat}
    (hij : i ≤ j) (hj : j < xs.length) : xs.getD i 0 ≤ xs.getD j 0 := by
  have hi : i < xs.length := lt_of_le_of_lt hij hj
  rw [List.getD_eq_getElem?_getD, List.getD_eq_getElem?_getD,
    List.getElem?_eq_getElem hi, List.getElem?_eq_getElem hj]
  simp only [Option.getD_some]
  rcases Nat.eq_or_lt_of_le hij with rfl | hlt
  · exact le_refl _
  · have := List.pairwise_iff_get.mp h ⟨i, hi⟩ ⟨j, hj⟩ hlt
    simpa using this

/-- The interpolation index of the `k/4` quantile stays within the
list. -/
theorem qIdx_le {m k : Nat} (hk : k ≤ 4) : (m - 1) * k / 4 ≤ m - 1 := by
  calc (m - 1) * k / 4 ≤ (m - 1) * 4 / 4 :=
        Nat.div_le_div_right (Nat.mul_le_mul_left _ hk)
    _ = m - 1 := Nat.mul_div_cancel _ (by norm_num)

/-- The interpolated `k/4` quantile lies between its two bracketing
sorted values. -/
theorem quartileVal_bounds {xs : List ℚ} (h : xs.Pairwise (· ≤ ·)) (hne : xs ≠ [])
    {k : Nat} (hk : k ≤ 4) :
    xs.getD ((xs.length - 1) * k / 4) 0 ≤ quartileVal xs k ∧
    quartileVal xs k ≤ xs.getD (min ((xs.length - 1) * k / 4 + 1) (xs.length - 1)) 0 := by
  have hm : 0 < xs.length := List.length_pos.mpr hne
  have hi1 : (xs.length - 1) * k / 4 ≤ xs.length - 1 := qIdx_le hk
  have hmin : (xs.length - 1) * k / 4 ≤ min ((xs.length - 1) * k / 4 + 1) (xs.length - 1) :=
    le_min (Nat.le_succ _) hi1
  have hltm : min ((xs.length - 1) * k / 4 + 1) (xs.length - 1) < xs.length := by omega
  have hx01 : xs.getD ((xs.length - 1) * k / 4) 0 ≤
      xs.getD (min ((xs.length - 1) * k / 4 + 1) (xs.length - 1)) 0 :=
    sorted_getD_mono h hmin hltm
  have hr : (xs.length - 1) * k % 4 < 4 := Nat.mod_lt _ (by norm_num)
  have ht0 : (0:ℚ) ≤ (((xs.length - 1) * k % 4 : Nat) : ℚ) / 4 := by positivity
  have ht1 : (((xs.length - 1) * k % 4 : Nat) : ℚ) / 4 ≤ 1 := by
    rw [div_le_one (by norm_num)]
    exact_mod_cast hr.le
  rw [quartileVal]
  constructor
  · have := mul_nonneg ht0 (by linarith :
      (0:ℚ) ≤ xs.getD (min ((xs.length - 1) * k / 4 + 1) (xs.length - 1)) 0 -
        xs.getD ((xs.length - 1) * k / 4) 0)
    linarith
  · have := mul_le_of_le_one_left (by linarith :
      (0:ℚ) ≤ xs.getD (min ((xs.length - 1) * k / 4 + 1) (xs.length - 1)) 0 -
        xs.getD ((xs.length - 1) * k / 4) 0) ht1
    linarith

/-- The interpolated quantile is monotone in the quantile index. -/
theorem quartileVal_mono {xs : List ℚ} (h : xs.Pairwise (· ≤ ·)) (hne : xs ≠ [])
    {k k' : Nat} (hkk : k ≤ k') (hk4 : k' ≤ 4) :
    quartileVal xs k ≤ quartileVal xs k' := by
  have hm : 0 < xs.length := List.length_pos.mpr hne
  have hab : (xs.length - 1) * k ≤ (xs.length - 1) * k' := Nat.mul_le_mul_left _ hkk
  have hii : (xs.length - 1) * k / 4 ≤ (xs.length - 1) * k' / 4 :=
    Nat.div_le_div_right hab
  rcases Nat.eq_or_lt_of_le hii with heq | hlt
  · -- same bracketing interval: compare the fractional parts
    have hrr : (xs.length - 1) * k % 4 ≤ (xs.length - 1) * k' % 4 := by omega
    have hg : (0:ℚ) ≤
        xs.getD (min ((xs.length - 1) * k / 4 + 1) (xs.length - 1)) 0 -
          xs.getD ((xs.length - 1) * k / 4) 0 := by
      have hi1 : (xs.length - 1) * k / 4 ≤ xs.length - 1 := qIdx_le (le_trans hkk hk4)
      have hmin : (xs.length - 1) * k / 4 ≤
          min ((xs.length - 1) * k / 4 + 1) (xs.length - 1) := le_min (Nat.le_succ _) hi1
      have hltm : min ((xs.length - 1) * k / 4 + 1) (xs.length - 1) < xs.length := by omega
      have := sorted_getD_mono h hmin hltm
      linarith
    rw [quartileVal, quartileVal, ← heq]
    have hrq : ((((xs.length - 1) * k % 4 : Nat)) : ℚ) ≤
        (((xs.length - 1) * k' % 4 : Nat) : ℚ) := by exact_mod_cast hrr
    have := mul_le_mul_of_nonneg_right (by linarith :
      ((((xs.length - 1) * k % 4 : Nat)) : ℚ) / 4 ≤
        (((xs.length - 1) * k' % 4 : Nat) : ℚ) / 4) hg
    linarith
  · -- strictly later interval: chain through the bracketing values
    have h1 := (quartileVal_bounds h hne (le_trans hkk hk4)).2
    have h2 := (quartileVal_bounds h hne hk4).1
    have hi' : (xs.length - 1) * k' / 4 < xs.length :=
      lt_of_le_of_lt (qIdx_le hk4) (by omega)
    have hmid : xs.getD (min ((xs.length - 1) * k / 4 + 1) (xs.length - 1)) 0 ≤
        xs.getD ((xs.length - 1) * k' / 4) 0 :=
      sorted_getD_mono h (le_trans (min_le_left _ _) hlt) hi'
    linarith

/-! Claim theorems. -/

/-- C1: the claim asserts that when the global mean is zero the delta
is reported as "not applicable" and the displayed output never holds
inf or NaN.  The code lacks any zero guard: on a dataset whose global
"Pop" mean is 0, the delta shown for region "A" evaluates to positive
infinity, which is rendered as "inf%". -/
theorem claim1_delta_zero_mean_yields_inf :
    deltaPercent d1 "A" "Pop" = some PFloat.inf := by
  have hf : filteredRecords d1 "A" = [recA] := by decide
  have hg : pmean (d1.records.map (·.attrVal "Pop")) = .val 0 := by
    norm_num [d1, recA, recB, Record.attrVal, pmean, List.lookup]
  have hl : pmean ((filteredRecords d1 "A").map (·.attrVal "Pop")) = .val 5 := by
    rw [hf]; norm_num [recA, Record.attrVal, pmean, List.lookup]
  rw [deltaPercent, if_pos (by decide : ("A" : String) ≠ sentinel), hl, hg]
  norm_num [PFloat.div, PFloat.sub, PFloat.mul]

/-- C2: filtering with the sentinel returns the full dataset unchanged,
and filtering with any other region keeps exactly the records whose
region field equals it, as a subsequence of the original order. -/
theorem claim2_filter_spec (d : Dataset) (region : String) :
    filteredRecords d sentinel = d.records ∧
    (region ≠ sentinel →
      (filteredRecords d region).Sublist d.records ∧
      (∀ x ∈ filteredRecords d region, x.state = region) ∧
      (∀ x ∈ d.records, x.state = region → x ∈ filteredRecords d region) ∧
      filteredRecords d region = d.records.filter (fun r => r.state == region)) := by
  refine ⟨by simp [filteredRecords], fun h => ?_⟩
  rw [filteredRecords, if_neg h]
  refine ⟨List.filter_sublist _, fun x hx => ?_, fun x hx hs => ?_, rfl⟩
  · exact eq_of_beq (by simpa using (List.mem_filter.mp hx).2)
  · exact List.mem_filter.mpr ⟨hx, by simp [hs]⟩

/-- C2 witness: on the scenario dataset, region "B" selects its two
districts in order. -/
theorem claim2_filter_spec_witness :
    (filteredRecords dW "B").Sublist dW.records ∧
    filteredRecords dW "B" = [recW2, recW3] :=
  ⟨((claim2_filter_spec dW "B").2 (by decide)).1, by decide⟩

/-- C3: the sentinel selection yields the fixed national centroid with
zoom 4; a specific region with a nonempty view yields the mean of the
view's latitudes and longitudes with zoom 6. -/
theorem claim3_center_zoom_spec (d : Dataset) (region : String) :
    (centerLat d sentinel = .val (20.5937 : ℚ) ∧
     centerLon d sentinel = .val (78.9629 : ℚ) ∧
     zoomLevel sentinel = 4) ∧
    (region ≠ sentinel → filteredRecords d region ≠ [] →
      centerLat d region =
        .val (((filteredRecords d region).map (·.latitude)).sum /
              ((filteredRecords d region).length : ℚ)) ∧
      centerLon d region =
        .val (((filteredRecords d region).map (·.longitude)).sum /
              ((filteredRecords d region).length : ℚ)) ∧
      zoomLevel region = 6) := by
  refine ⟨⟨by simp [centerLat], by simp [centerLon], by simp [zoomLevel]⟩,
    fun h hne => ⟨?_, ?_, by simp [zoomLevel, h]⟩⟩
  · rw [centerLat, if_neg h, pmean, if_neg (by simpa using hne)]
    simp
  · rw [centerLon, if_neg h, pmean, if_neg (by simpa using hne)]
    simp

/-- C3 witness: on the scenario dataset, region "B" centers at
latitude 13, longitude 23, zoom 6. -/
theorem claim3_center_zoom_spec_witness :
    centerLat dW "B" = .val 13 ∧ centerLon dW "B" = .val 23 ∧ zoomLevel "B" = 6 := by
  obtain ⟨h1, h2, h3⟩ := (claim3_center_zoom_spec dW "B").2 (by decide) (by decide)
  have hf : filteredRecords dW "B" = [recW2, recW3] := by decide
  refine ⟨h1.trans ?_, h2.trans ?_, h3⟩ <;>
    · rw [hf]; norm_num [recW2, recW3]

/-- C4: top-N selection is sorted descending by the attribute, has
length `min n |view|`, keeps tied records in the view's original order
(its restriction to any fixed attribute value is a prefix of the
view's restriction), and the code instantiates it with n = 10. -/
theorem claim4_topN_spec (view : List Record) (attr : String) (n : Nat) :
    (topN view attr n).Pairwise (fun a b => b.attrVal attr ≤ a.attrVal attr) ∧
    (topN view attr n).length = min n view.length ∧
    (∀ q : ℚ, (topN view attr n).filter (fun x => decide (x.attrVal attr = q)) <+:
      view.filter (fun x => decide (x.attrVal attr = q))) ∧
    topDistricts view attr = topN view attr 10 := by
  refine ⟨?_, by simp [topN], fun q => ?_, rfl⟩
  · have hsorted := List.sorted_mergeSort (descBy_trans attr) (descBy_total attr) view
    have htake : (topN view attr n).Pairwise (fun a b => descBy attr a b = true) :=
      List.Pairwise.sublist (List.take_sublist n _) hsorted
    exact htake.imp (fun hab => by simpa [descBy] using hab)
  · have h1 := List.take_prefix n (view.mergeSort (descBy attr))
    have h2 := h1.filter (fun x => decide (x.attrVal attr = q))
    rw [mergeSort_filter_key] at h2
    exact h2

/-- C5: the claim asserts that computations over an empty view fail
with an explicit EmptyView result and that a NaN center is never
propagated into rendering.  The code has no such guard: requesting
region "B" on a dataset containing only region "A" produces an empty
view whose center latitude/longitude and mean are all NaN — values the
code passes straight to the map figure — while top-N silently yields
an empty ranking. -/
theorem claim5_empty_view_nan :
    filteredRecords d5 "B" = [] ∧
    centerLat d5 "B" = PFloat.nan ∧
    centerLon d5 "B" = PFloat.nan ∧
    (describe (filteredRecords d5 "B") "Pop").mean = PFloat.nan ∧
    topDistricts (filteredRecords d5 "B") "Pop" = [] := by
  refine ⟨by decide, by decide, by decide, by decide, ?_⟩
  have h : filteredRecords d5 "B" = [] := by decide
  simp [h, topDistricts, topN]

/-- C6 counterexample: the claim asserts that the exported CSV is the
view restricted to the four columns and sorted descending by the
primary attribute; on a two-row dataset stored in ascending "Pop"
order, the code's export keeps all columns and the original row order,
so it differs from the restricted, sorted table the claim describes. -/
theorem claim6_export_counterexample :
    exportFrame d6 (filteredRecords d6 sentinel) ≠
      specExportFrame (filteredRecords d6 sentinel) "Pop" "Lit" ∧
    (exportFrame d6 (filteredRecords d6 sentinel)).rows ≠
      (specExportFrame (filteredRecords d6 sentinel) "Pop" "Lit").rows := by
  have hf : filteredRecords d6 sentinel = [recB, recA] := by decide
  have hd : descBy "Pop" recB recA = false := by decide
  have hrows : (specExportFrame (filteredRecords d6 sentinel) "Pop" "Lit").rows
      = [recA, recB] := by
    rw [specExportFrame, hf, mergeSort_pair, hd]
    simp
  have hne : ([recB, recA] : List Record) ≠ [recA, recB] := by decide
  refine ⟨fun h => ?_, fun h => ?_⟩
  · rw [exportFrame, hf] at h
    exact hne ((congrArg Frame.rows h).trans hrows)
  · rw [exportFrame, hf] at h
    exact hne (h.trans hrows)

/-- C6 amended: the export serializes the whole filtered view — all
dataset columns, rows in the view's original order; the table
restricted to region, district, primary and secondary and sorted
descending by the primary attribute is only the on-screen display
(which matches the spec's description of the export); the download
filename embeds the region with spaces replaced by underscores. -/
theorem claim6_export_amended (d : Dataset) (view : List Record) (p s region : String) :
    exportFrame d view = ⟨d.allCols, view⟩ ∧
    displayedFrame view p s = specExportFrame view p s ∧
    (displayedFrame view p s).rows.Perm view ∧
    (displayedFrame view p s).rows.Pairwise (fun a b => b.attrVal p ≤ a.attrVal p) ∧
    exportFileName region = "india_census_" ++ (region.replace " " "_") ++ ".csv" := by
  refine ⟨rfl, rfl, List.mergeSort_perm view _, ?_, rfl⟩
  have htrans : ∀ a b c : Record, descBy p a b → descBy p b c → descBy p a c := by
    intro a b c hab hbc
    simp only [descBy, decide_eq_true_eq] at *
    exact le_trans hbc hab
  have htotal : ∀ a b : Record, descBy p a b || descBy p b a := by
    intro a b
    simp only [descBy, Bool.or_eq_true, decide_eq_true_eq]
    exact le_total _ _
  exact (List.sorted_mergeSort htrans htotal view).imp
    (fun hab => by simpa [descBy] using hab)

/-- C7: the attribute selector options are the numeric column names in
alphabetical order without the coordinate columns, and the region
selector options are the distinct region names in alphabetical order
with the sentinel prepended. -/
theorem claim7_schema_spec (d : Dataset) :
    ((numericAttributes d).Sorted (· ≤ ·) ∧
     "Latitude" ∉ numericAttributes d ∧
     "Longitude" ∉ numericAttributes d ∧
     (∀ c, c ∈ numericAttributes d ↔
       c ∈ d.numericCols ∧ c ≠ "Latitude" ∧ c ≠ "Longitude")) ∧
    (∃ t, regionOptions d = sentinel :: t ∧ t.Sorted (· ≤ ·) ∧ t.Nodup ∧
      (∀ s, s ∈ t ↔ ∃ r ∈ d.records, r.state = s)) := by
  constructor
  · refine ⟨List.Pairwise.filter _ (List.sorted_insertionSort (· ≤ ·) d.numericCols),
      fun hmem => ?_, fun hmem => ?_, fun c => ?_⟩
    · have := (List.mem_filter.mp hmem).2
      simp at this
    · have := (List.mem_filter.mp hmem).2
      simp at this
    · rw [numericAttributes, List.mem_filter, sortedStrings, List.mem_insertionSort]
      simp [and_assoc]
  · refine ⟨_, rfl,
      List.sorted_insertionSort (· ≤ ·) _,
      ((List.perm_insertionSort _ _).nodup_iff).mpr (List.nodup_dedup _), fun s => ?_⟩
    rw [sortedStrings, List.mem_insertionSort, List.mem_dedup, List.mem_map]

/-- Each record of `l` lands in exactly one bucket of a list of
distinct keys that covers all its region names, so concatenating the
buckets recovers `l` up to permutation. -/
theorem filter_flatMap_perm (ks : List String) : ∀ l : List Record, ks.Nodup →
    (∀ x ∈ l, x.state ∈ ks) →
    (ks.flatMap (fun k => l.filter (fun x => x.state == k))).Perm l := by
  induction ks with
  | nil =>
    intro l _ hcov
    cases l with
    | nil => simp
    | cons a t => exact absurd (hcov a (List.mem_cons_self a t)) (List.not_mem_nil _)
  | cons k ks ih =>
    intro l hnd hcov
    have hkn : k ∉ ks := (List.nodup_cons.mp hnd).1
    have hks : ks.Nodup := (List.nodup_cons.mp hnd).2
    rw [List.flatMap_cons]
    have hcongr : ∀ k' ∈ ks, l.filter (fun x => x.state == k') =
        (l.filter (fun x => !(x.state == k))).filter (fun x => x.state == k') := by
      intro k' hk'
      rw [List.filter_filter]
      apply List.filter_congr
      intro x hx
      by_cases hxk : x.state = k'
      · have hk'k : k' ≠ k := by
          intro hc
          exact hkn (hc ▸ hk')
        simp [hxk, hk'k]
      · simp [hxk]
    rw [List.flatMap_congr hcongr]
    have hcov' : ∀ x ∈ l.filter (fun x => !(x.state == k)), x.state ∈ ks := by
      intro x hx
      have hxl := (List.mem_filter.mp hx).1
      have hxk : ¬(x.state = k) := by simpa using (List.mem_filter.mp hx).2
      rcases List.mem_cons.mp (hcov x hxl) with h | h
      · exact absurd h hxk
      · exact h
    have hperm := ih (l.filter (fun x => !(x.state == k))) hks hcov'
    calc l.filter (fun x => x.state == k) ++
          ks.flatMap (fun k' =>
            (l.filter (fun x => !(x.state == k))).filter (fun x => x.state == k'))
        ~ l.filter (fun x => x.state == k) ++ l.filter (fun x => !(x.state == k)) :=
          List.Perm.append_left _ hperm
      _ ~ l := List.filter_append_perm _ l

/-- A district whose region name is literally the sentinel string. -/
def rec8a : Record := ⟨"Overall India", "X", 1, 2, []⟩

/-- A district in region "Bihar". -/
def rec8b : Record := ⟨"Bihar", "Y", 3, 4, []⟩

/-- A dataset in which one region name collides with the sentinel. -/
def d8 : Dataset :=
  ⟨["State", "District", "Latitude", "Longitude"], ["Latitude", "Longitude"],
   [rec8a, rec8b]⟩

/-- C8 counterexample: on a dataset containing a record whose region
name is literally the sentinel string, that record belongs to no
per-region view (its name is excluded from the enumeration), so the
union of the views fails to reconstruct the dataset. -/
theorem claim8_partition_counterexample :
    ¬ ((∀ r ∈ regionKeys d8, ∀ x ∈ filteredRecords d8 r, x.state = r) ∧
       ((regionKeys d8).flatMap (fun r => filteredRecords d8 r)).Perm d8.records) := by
  rintro ⟨-, hperm⟩
  have h1 : (d8.records.map (·.state)).dedup = ["Overall India", "Bihar"] := by decide
  have h2 : regionKeys d8 = ["Bihar"] := by
    rw [regionKeys, h1, sortedStrings]
    simp [List.insertionSort, List.orderedInsert, sentinel]
    decide
  have h3 : (regionKeys d8).flatMap (fun r => filteredRecords d8 r) = [rec8b] := by
    rw [h2]
    decide
  rw [h3] at hperm
  have := hperm.length_eq
  simp [d8] at this

/-- C8 amended: provided no record's region name equals the sentinel
string, every per-region view contains only records of its region and
the concatenation of the views over the distinct region names
reconstructs the dataset up to permutation. -/
theorem claim8_partition_amended (d : Dataset)
    (hs : ∀ x ∈ d.records, x.state ≠ sentinel) :
    (∀ r ∈ regionKeys d, ∀ x ∈ filteredRecords d r, x.state = r) ∧
    ((regionKeys d).flatMap (fun r => filteredRecords d r)).Perm d.records := by
  have hrs : ∀ r ∈ regionKeys d, r ≠ sentinel := by
    intro r hr
    have := (List.mem_filter.mp hr).2
    simpa using this
  constructor
  · intro r hr x hx
    rw [filteredRecords, if_neg (hrs r hr)] at hx
    exact eq_of_beq (by simpa using (List.mem_filter.mp hx).2)
  · have hcongr : ∀ r ∈ regionKeys d,
        filteredRecords d r = d.records.filter (fun x => x.state == r) := by
      intro r hr
      rw [filteredRecords, if_neg (hrs r hr)]
    rw [List.flatMap_congr hcongr]
    apply filter_flatMap_perm
    · exact ((List.perm_insertionSort _ _).nodup_iff).mpr (List.nodup_dedup _) |>.filter _
    · intro x hx
      rw [regionKeys, List.mem_filter, sortedStrings, List.mem_insertionSort, List.mem_dedup]
      refine ⟨List.mem_map.mpr ⟨x, hx, rfl⟩, by simpa using hs x hx⟩

/-- C8 witness: on the scenario dataset (regions "A" and "B") the
concatenated per-region views are a permutation of the dataset. -/
theorem claim8_partition_amended_witness :
    ((regionKeys dW).flatMap (fun r => filteredRecords dW r)).Perm dW.records :=
  (claim8_partition_amended dW (by decide)).2

/-- C9: `describe` reports the record count of the view, and on a
nonempty view its min, 25th, 50th and 75th percentiles and max are
finite values in nondecreasing order (the spread entry follows the
ddof = 1 sample convention by construction of `sampleVar`). -/
theorem claim9_describe_spec (view : List Record) (attr : String) (h : view ≠ []) :
    (describe view attr).count = view.length ∧
    PFloat.ble (describe view attr).min (describe view attr).q25 = true ∧
    PFloat.ble (describe view attr).q25 (describe view attr).q50 = true ∧
    PFloat.ble (describe view attr).q50 (describe view attr).q75 = true ∧
    PFloat.ble (describe view attr).q75 (describe view attr).max = true := by
  have hvals : view.map (·.attrVal attr) ≠ [] := by simpa using h
  have hemp : (view.map (·.attrVal attr)).isEmpty = false := by
    simpa [List.isEmpty_iff] using hvals
  have hsorted : (ascSort (view.map (·.attrVal attr))).Pairwise (· ≤ ·) := by
    have := List.sorted_mergeSort ascLe_trans ascLe_total (view.map (·.attrVal attr))
    exact this.imp (fun hab => by simpa using hab)
  have hsne : ascSort (view.map (·.attrVal attr)) ≠ [] := by
    rw [ascSort, ← List.length_pos, List.length_mergeSort, List.length_pos]
    exact hvals
  have hq : ∀ k, quartilePF (view.map (·.attrVal attr)) k =
      .val (quartileVal (ascSort (view.map (·.attrVal attr))) k) := by
    intro k
    rw [quartilePF, if_neg (by simp [hemp])]
  have hb : ∀ k k' : Nat, k ≤ k' → k' ≤ 4 →
      PFloat.ble (quartilePF (view.map (·.attrVal attr)) k)
        (quartilePF (view.map (·.attrVal attr)) k') = true := by
    intro k k' hkk hk4
    rw [hq k, hq k']
    simp only [PFloat.ble]
    exact decide_eq_true (quartileVal_mono hsorted hsne hkk hk4)
  exact ⟨by simp [describe], hb 0 1 (by norm_num) (by norm_num),
    hb 1 2 (by norm_num) (by norm_num), hb 2 3 (by norm_num) (by norm_num),
    hb 3 4 (by norm_num) (by norm_num)⟩

/-- C9 witness: on the two "B"-region scenario districts the count is
2 and the reported minimum is at most the 25th percentile. -/
theorem claim9_describe_spec_witness :
    (describe [recW2, recW3] "Pop").count = [recW2, recW3].length ∧
    PFloat.ble (describe [recW2, recW3] "Pop").min
      (describe [recW2, recW3] "Pop").q25 = true := by
  obtain ⟨h1, h2, -, -, -⟩ := claim9_describe_spec [recW2, recW3] "Pop" (by decide)
  exact ⟨h1, h2⟩

/-- C10: the two duplicated `if plot:` blocks compute identical
outputs — the same filtered view, center and zoom, deltas, top-10
ranking, export, filename, displayed table and summary statistics —
for every dataset and selection, so the program is a single code path
computationally. -/
theorem claim10_blocks_equivalent (d : Dataset) (sel : Selection) :
    renderPass1 d sel = renderPass2 d sel := rfl

end Census
